import Mathlib

/-!
Verification of the per-agent growth/division/boundary behavior of the
`boundaries` BioDynaMo simulation (`src/boundaries.h`).

The embedding models real numbers (`double`) as rationals: every constant of
the program (150, 4500, 0.01, 300, 6, 8, ...) is exactly representable, and
all comparisons performed by the code are order comparisons that agree with
their floating-point counterparts on these values.

External library functionality (the BioDynaMo mechanical model) is kept
abstract: the mechanical effect of `Cell::Divide` on the mother and the
daughter's initial mechanical state is a parameter `dm`, and `ChangeVolume`
requests are recorded as effects rather than interpreted.
-/

namespace Boundaries

/-- `const int simulation_steps = 600` -- number of simulation steps. -/
def simulation_steps : ℕ := 600

/-- `const double x_range = 150`. -/
def x_range : ℚ := 150

/-- `const double y_range = 150`. -/
def y_range : ℚ := 150

/-- `const double z_range = 4500`. -/
def z_range : ℚ := 4500

/-- `const double simulation_cube_dim = 4500`. -/
def simulation_cube_dim : ℚ := 4500

/-- `const double z_pos_init = 0 - (simulation_cube_dim/2)`. -/
def z_pos_init : ℚ := 0 - simulation_cube_dim / 2

/-- `const double x_min = -x_range/2`. -/
def x_min : ℚ := -x_range / 2

/-- `const double x_max = x_range/2`. -/
def x_max : ℚ := x_range / 2

/-- `const double y_min = -x_range/2` (the source uses `x_range` here). -/
def y_min : ℚ := -x_range / 2

/-- `const double y_max = x_range/2` (the source uses `x_range` here). -/
def y_max : ℚ := x_range / 2

/-- `const size_t num_cells = 10` -- number of precursor cells. -/
def num_cells : ℕ := 10

/-- A `std::array<double, 3>` position; index 0 is `x`, 1 is `y`, 2 is `z`. -/
structure Coord3 where
  x : ℚ
  y : ℚ
  z : ℚ
deriving DecidableEq

/-- The mechanical state of a BioDynaMo `Cell` base object: the fields of the
external base class that the code in `boundaries.h` reads or writes. -/
structure CellMech where
  position : Coord3
  diameter : ℚ
  adherence : ℚ
  mass : ℚ
deriving DecidableEq

/-- The biology modules of this simulation; `CTList<GrowthModule>` has exactly
one entry. -/
inductive BiologyModule where
  | growthModule
deriving DecidableEq

/-- A `MyCell`: the base `Cell` mechanical state plus the two extension data
members `can_divide_` and `cell_color_`, plus the attached biology modules. -/
structure MyCell where
  mech : CellMech
  can_divide : Bool
  cell_color : ℤ
  biologyModules : List BiologyModule
deriving DecidableEq

/-- The external mechanical effect of one `Cell::Divide` call: from the
mother's mechanical state it produces the mother's post-split mechanical
state and the daughter's initial mechanical state.  It is library code
(outside `boundaries.h`) and is kept fully abstract. -/
def DivideMech : Type := CellMech → CellMech × CellMech

/-- `MyCellExt(const std::array<double, 3>& position)`: the base constructor
(external, abstracted by `base`) places the cell at `position`; the body then
sets `cell_color_ = 0` and `can_divide_ = true`.  No biology module is
attached by the constructor. -/
def MyCellExt.ofPosition (base : CellMech) (p : Coord3) : MyCell :=
  { mech := { base with position := p },
    cell_color := 0,
    can_divide := true,
    biologyModules := [] }

/-- `MyCellExt(const CellDivisionEvent& event, TMother* mother)`: the base
constructor handles the mechanical split (abstracted by `dm`); the body copies
`can_divide_` and `cell_color_` from the mother.  The division event also
copies the mother's biology modules to the daughter (`gAllEventIds`).
Returns (mother after the split, daughter). -/
def MyCellExt.divisionCtor (dm : DivideMech) (mother : MyCell) : MyCell × MyCell :=
  ({ mother with mech := (dm mother.mech).1 },
   { mech := (dm mother.mech).2,
     can_divide := mother.can_divide,
     cell_color := mother.cell_color,
     biologyModules := mother.biologyModules })

namespace GrowthModule

/-- The growth/division part of `GrowthModule::Run` (the first `if` of the
body): returns the updated cell, the optional daughter, and the list of
`ChangeVolume` requests issued. -/
def runDecision (dm : DivideMech) (cell : MyCell) : MyCell × Option MyCell × List ℚ :=
  if cell.mech.diameter < 8 then
    (cell, none, [300])
  else
    if cell.can_divide = true then
      let mother := (MyCellExt.divisionCtor dm cell).1
      let d0 := (MyCellExt.divisionCtor dm cell).2
      let d1 := { d0 with cell_color := mother.cell_color }
      let d2 := { d1 with can_divide := true }
      (mother, some d2, [])
    else
      (cell, none, [])

/-- The `// check for x` block of `GrowthModule::Run`: coordinates together
with the `update_position` flag (initially false). -/
def boundX (coord : Coord3) : Coord3 × Bool :=
  if coord.x > x_max - 0.01 then ({ coord with x := x_max - 0.01 }, true)
  else if coord.x < x_min + 0.01 then ({ coord with x := x_max + 0.01 }, true)
  else (coord, false)

/-- The `// check for y` block of `GrowthModule::Run`, run after the x
check. -/
def boundY (cx : Coord3 × Bool) : Coord3 × Bool :=
  if cx.1.y > y_max - 0.01 then ({ cx.1 with y := y_max - 0.01 }, true)
  else if cx.1.y < y_min + 0.01 then ({ cx.1 with y := x_max + 0.01 }, true)
  else cx

/-- The boundary check of `GrowthModule::Run`: from the read coordinates it
computes the corrected coordinates and the `update_position` flag. -/
def boundCoord (coord : Coord3) : Coord3 × Bool :=
  boundY (boundX coord)

/-- The observable outcome of one `GrowthModule::Run` invocation on a cell. -/
structure RunResult where
  cell : MyCell
  daughter : Option MyCell
  volumeRequests : List ℚ
  positionWritten : Bool
deriving DecidableEq

/-- `GrowthModule::Run(T* cell)`: the growth/division decision, followed by
the boundary check on the (possibly divided) cell; `SetPosition` is called
only when `update_position` is true. -/
def Run (dm : DivideMech) (cell : MyCell) : RunResult :=
  let dec := runDecision dm cell
  let bc := boundCoord dec.1.mech.position
  { cell := if bc.2 then { dec.1 with mech := { dec.1.mech with position := bc.1 } } else dec.1,
    daughter := dec.2.1,
    volumeRequests := dec.2.2,
    positionWritten := bc.2 }

end GrowthModule

/-- The cell-creation loop of `Simulate`: `num_cells` cells, the i-th placed
at `(draw i).1, (draw i).2, z_pos_init` (the two coordinates come from
`random->Uniform(x_min, x_max)` and `random->Uniform(y_min, y_max)`), with
diameter 6, adherence 0.0001, mass 0.1, and a `GrowthModule` attached. -/
def Simulate.initialCells (base : CellMech) (draw : ℕ → ℚ × ℚ) : List MyCell :=
  (List.range num_cells).map (fun i =>
    let c0 := MyCellExt.ofPosition base ⟨(draw i).1, (draw i).2, z_pos_init⟩
    let c1 := { c0 with mech := { c0.mech with diameter := 6 } }
    let c2 := { c1 with mech := { c1.mech with adherence := 0.0001 } }
    let c3 := { c2 with mech := { c2.mech with mass := 0.1 } }
    { c3 with biologyModules := c3.biologyModules ++ [BiologyModule.growthModule] })

/-! ### Concrete fixtures used to instantiate the theorems -/

/-- A division mechanics that leaves the mother in place and gives the
daughter the mother's mechanical state. -/
def dmId : DivideMech := fun m => (m, m)

/-- A division mechanics whose daughter is placed far outside the domain. -/
def dmOut : DivideMech := fun m => (m, { m with position := ⟨200, -300, 4⟩ })

/-- A small cell out of range in x (too high) and y (too low). -/
def cellFar : MyCell :=
  { mech := { position := ⟨100, -100, 7⟩, diameter := 6, adherence := 0.0001, mass := 0.1 },
    can_divide := true, cell_color := 5, biologyModules := [BiologyModule.growthModule] }

/-- A small cell strictly inside the x/y bounds, with z far outside them. -/
def cellIn : MyCell :=
  { mech := { position := ⟨0, 1, 9999⟩, diameter := 6, adherence := 0.0001, mass := 0.1 },
    can_divide := true, cell_color := 0, biologyModules := [BiologyModule.growthModule] }

/-- A cell at the division threshold that is allowed to divide. -/
def cellBig : MyCell :=
  { mech := { position := ⟨0, 0, 0⟩, diameter := 8, adherence := 0.0001, mass := 0.1 },
    can_divide := true, cell_color := 3, biologyModules := [BiologyModule.growthModule] }

/-- The same cell as `cellBig` except for its color. -/
def cellBig2 : MyCell := { cellBig with cell_color := 7 }

/-- A cell at the division threshold that is not allowed to divide. -/
def cellBigNoDiv : MyCell :=
  { mech := { position := ⟨0, 0, 0⟩, diameter := 9, adherence := 0.0001, mass := 0.1 },
    can_divide := false, cell_color := -5, biologyModules := [BiologyModule.growthModule] }

/-- The zero mechanical state, a stand-in for the external base defaults. -/
def mechZero : CellMech := { position := ⟨0, 0, 0⟩, diameter := 0, adherence := 0, mass := 0 }

/-- A random source that always answers 0. -/
def drawZero : ℕ → ℚ × ℚ := fun _ => (0, 0)

/-! ### Helper lemmas -/

open GrowthModule

lemma boundCoord_fst (c : Coord3) :
    (boundCoord c).1 =
      ⟨if c.x > x_max - 0.01 then x_max - 0.01
        else if c.x < x_min + 0.01 then x_max + 0.01 else c.x,
       if c.y > y_max - 0.01 then y_max - 0.01
        else if c.y < y_min + 0.01 then x_max + 0.01 else c.y,
       c.z⟩ := by
  unfold boundCoord boundY boundX
  split_ifs <;> simp_all

lemma boundCoord_not_written (c : Coord3) (h : (boundCoord c).2 = false) :
    (boundCoord c).1 = c := by
  unfold boundCoord boundY boundX at *
  split_ifs at h ⊢
  rfl

lemma Run_daughter (dm : DivideMech) (cell : MyCell) :
    (Run dm cell).daughter = (runDecision dm cell).2.1 := rfl

lemma Run_volumeRequests (dm : DivideMech) (cell : MyCell) :
    (Run dm cell).volumeRequests = (runDecision dm cell).2.2 := rfl

lemma Run_positionWritten (dm : DivideMech) (cell : MyCell) :
    (Run dm cell).positionWritten = (boundCoord (runDecision dm cell).1.mech.position).2 := rfl

lemma Run_cell_position (dm : DivideMech) (cell : MyCell) :
    (Run dm cell).cell.mech.position =
      (boundCoord (runDecision dm cell).1.mech.position).1 := by
  unfold Run
  dsimp only
  split_ifs with h
  · rfl
  · rw [boundCoord_not_written _ (by simpa using h)]

lemma runDecision_small (dm : DivideMech) (cell : MyCell) (h : cell.mech.diameter < 8) :
    runDecision dm cell = (cell, none, [300]) := by
  unfold runDecision
  rw [if_pos h]

lemma runDecision_div (dm : DivideMech) (cell : MyCell)
    (h8 : ¬ cell.mech.diameter < 8) (hcd : cell.can_divide = true) :
    runDecision dm cell =
      ({ cell with mech := (dm cell.mech).1 },
       some { mech := (dm cell.mech).2, can_divide := true,
              cell_color := cell.cell_color, biologyModules := cell.biologyModules },
       []) := by
  unfold runDecision MyCellExt.divisionCtor
  rw [if_neg h8, if_pos hcd]

lemma runDecision_nodiv (dm : DivideMech) (cell : MyCell)
    (h8 : ¬ cell.mech.diameter < 8) (hcd : cell.can_divide = false) :
    runDecision dm cell = (cell, none, []) := by
  unfold runDecision
  rw [if_neg h8, if_neg (by simp [hcd])]

lemma runDecision_cell_color (dm : DivideMech) (cell : MyCell) :
    ((runDecision dm cell).1).cell_color = cell.cell_color := by
  unfold runDecision MyCellExt.divisionCtor
  split_ifs <;> rfl

lemma runDecision_can_divide (dm : DivideMech) (cell : MyCell) :
    ((runDecision dm cell).1).can_divide = cell.can_divide := by
  unfold runDecision MyCellExt.divisionCtor
  split_ifs <;> rfl

lemma Run_cell_cell_color (dm : DivideMech) (cell : MyCell) :
    (Run dm cell).cell.cell_color = cell.cell_color := by
  unfold Run
  dsimp only
  split_ifs <;> exact runDecision_cell_color dm cell

lemma Run_cell_can_divide (dm : DivideMech) (cell : MyCell) :
    (Run dm cell).cell.can_divide = cell.can_divide := by
  unfold Run
  dsimp only
  split_ifs <;> exact runDecision_can_divide dm cell

lemma boundCoord_inside (c : Coord3)
    (h1 : x_min + 0.01 < c.x) (h2 : c.x < x_max - 0.01)
    (h3 : y_min + 0.01 < c.y) (h4 : c.y < y_max - 0.01) :
    boundCoord c = (c, false) := by
  unfold boundCoord boundY boundX
  rw [if_neg (not_lt.mpr h2.le), if_neg (not_lt.mpr h1.le)]
  dsimp only
  rw [if_neg (not_lt.mpr h4.le), if_neg (not_lt.mpr h3.le)]

lemma runDecision_fst_of_nodivide (dm : DivideMech) (cell : MyCell)
    (h : cell.mech.diameter < 8 ∨ cell.can_divide = false) :
    (runDecision dm cell).1 = cell := by
  rcases h with h | h
  · rw [runDecision_small dm cell h]
  · by_cases h8 : cell.mech.diameter < 8
    · rw [runDecision_small dm cell h8]
    · rw [runDecision_nodiv dm cell h8 h]

lemma Run_cell_mech (dm : DivideMech) (cell : MyCell) :
    (Run dm cell).cell.mech =
      { (runDecision dm cell).1.mech with
        position := (boundCoord (runDecision dm cell).1.mech.position).1 } := by
  unfold Run
  dsimp only
  split_ifs with h
  · rfl
  · rw [boundCoord_not_written _ (by simpa using h)]

lemma runDecision_fst_mech (dm : DivideMech) (cell : MyCell) :
    ((runDecision dm cell).1).mech =
      if cell.mech.diameter < 8 then cell.mech
      else if cell.can_divide = true then (dm cell.mech).1 else cell.mech := by
  unfold runDecision MyCellExt.divisionCtor
  split_ifs <;> rfl

lemma runDecision_requests (dm : DivideMech) (cell : MyCell) :
    (runDecision dm cell).2.2 = if cell.mech.diameter < 8 then [300] else [] := by
  unfold runDecision
  split_ifs <;> rfl

lemma runDecision_daughter_erased (dm : DivideMech) (cell : MyCell) :
    Option.map (fun d => (d.mech, d.can_divide, d.biologyModules)) (runDecision dm cell).2.1 =
      if cell.mech.diameter < 8 then none
      else if cell.can_divide = true then some ((dm cell.mech).2, true, cell.biologyModules)
      else none := by
  unfold runDecision MyCellExt.divisionCtor
  split_ifs <;> rfl

lemma runDecision_daughter_color (dm : DivideMech) (cell : MyCell) :
    ∀ d, (runDecision dm cell).2.1 = some d → d.cell_color = cell.cell_color := by
  intro d hd
  by_cases h8 : cell.mech.diameter < 8
  · rw [runDecision_small dm cell h8] at hd
    cases hd
  · by_cases hcd : cell.can_divide = true
    · rw [runDecision_div dm cell h8 hcd] at hd
      rw [Option.some_inj] at hd
      rw [← hd]
    · rw [runDecision_nodiv dm cell h8 (by simpa using hcd)] at hd
      cases hd

/-! ### Claim theorems -/

/-- C1: one `GrowthModule::Run` invocation updates the position the boundary
check reads coordinate-wise by exactly the two-branch rule with margin
ε = 0.01: if `x > x_max − ε` then `x := x_max − ε`, else if `x < x_min + ε`
then `x := x_max + ε`; independently, if `y > y_max − ε` then
`y := y_max − ε`, else if `y < y_min + ε` then `y := x_max + ε` (the x upper
bound); a coordinate satisfying neither branch is unchanged.  When the
invocation does not divide, the position the boundary check reads is the
agent's own position. -/
theorem Run_clamp_rule (dm : DivideMech) (cell : MyCell) :
    ((Run dm cell).cell.mech.position =
      ⟨if (runDecision dm cell).1.mech.position.x > x_max - 0.01 then x_max - 0.01
        else if (runDecision dm cell).1.mech.position.x < x_min + 0.01 then x_max + 0.01
        else (runDecision dm cell).1.mech.position.x,
       if (runDecision dm cell).1.mech.position.y > y_max - 0.01 then y_max - 0.01
        else if (runDecision dm cell).1.mech.position.y < y_min + 0.01 then x_max + 0.01
        else (runDecision dm cell).1.mech.position.y,
       (runDecision dm cell).1.mech.position.z⟩) ∧
    (cell.mech.diameter < 8 ∨ cell.can_divide = false →
      (runDecision dm cell).1.mech.position = cell.mech.position) := by
  constructor
  · rw [Run_cell_position, boundCoord_fst]
  · rintro (h | h)
    · rw [runDecision_small dm cell h]
    · by_cases h8 : cell.mech.diameter < 8
      · rw [runDecision_small dm cell h8]
      · rw [runDecision_nodiv dm cell h8 h]

/-- Witness for C1 at a concrete out-of-range cell: the hypothesis of the
second conjunct holds and the clamp moves both coordinates to the literal
targets of the rule. -/
theorem Run_clamp_rule_witness :
    (cellFar.mech.diameter < 8 ∨ cellFar.can_divide = false) ∧
    (runDecision dmId cellFar).1.mech.position = cellFar.mech.position ∧
    (Run dmId cellFar).cell.mech.position = ⟨x_max - 0.01, x_max + 0.01, 7⟩ := by
  have h : cellFar.mech.diameter < 8 ∨ cellFar.can_divide = false := Or.inl (by decide)
  have h2 := (Run_clamp_rule dmId cellFar).2 h
  refine ⟨h, h2, ?_⟩
  rw [(Run_clamp_rule dmId cellFar).1, h2]
  norm_num [cellFar, x_max, x_min, y_max, y_min, x_range]

/-- C2: for every agent with diameter ≥ 8 and `can_divide == true`, one
`GrowthModule::Run` invocation produces exactly one daughter, with
`can_divide == true` and `cell_color` equal to the mother's at call time. -/
theorem Run_division_threshold (dm : DivideMech) (cell : MyCell)
    (h8 : 8 ≤ cell.mech.diameter) (hcd : cell.can_divide = true) :
    ∃ d : MyCell, (Run dm cell).daughter = some d ∧
      d.can_divide = true ∧ d.cell_color = cell.cell_color := by
  rw [Run_daughter, runDecision_div dm cell (not_lt.mpr h8) hcd]
  exact ⟨_, rfl, rfl, rfl⟩

/-- Witness for C2 at a concrete cell of diameter 8 with `can_divide`. -/
theorem Run_division_threshold_witness :
    8 ≤ cellBig.mech.diameter ∧ cellBig.can_divide = true ∧
    ∃ d : MyCell, (Run dmId cellBig).daughter = some d ∧
      d.can_divide = true ∧ d.cell_color = cellBig.cell_color :=
  ⟨by decide, rfl, Run_division_threshold dmId cellBig (by decide) rfl⟩

/-- C3: for every agent with diameter < 8, one `GrowthModule::Run` invocation
issues exactly one volume-increase request of 300 units and produces no
daughter. -/
theorem Run_growth_small (dm : DivideMech) (cell : MyCell)
    (h : cell.mech.diameter < 8) :
    (Run dm cell).volumeRequests = [300] ∧ (Run dm cell).daughter = none := by
  rw [Run_volumeRequests, Run_daughter, runDecision_small dm cell h]
  exact ⟨rfl, rfl⟩

/-- Witness for C3 at a concrete cell of diameter 6. -/
theorem Run_growth_small_witness :
    cellFar.mech.diameter < 8 ∧
    (Run dmId cellFar).volumeRequests = [300] ∧ (Run dmId cellFar).daughter = none :=
  ⟨by decide, Run_growth_small dmId cellFar (by decide)⟩

/-- C4: for every agent with diameter ≥ 8 and `can_divide == false`, one
`GrowthModule::Run` invocation produces no daughter and leaves the agent's
`can_divide` and `cell_color` unchanged. -/
theorem Run_division_suppressed (dm : DivideMech) (cell : MyCell)
    (h8 : 8 ≤ cell.mech.diameter) (hcd : cell.can_divide = false) :
    (Run dm cell).daughter = none ∧
    (Run dm cell).cell.can_divide = cell.can_divide ∧
    (Run dm cell).cell.cell_color = cell.cell_color := by
  refine ⟨?_, Run_cell_can_divide dm cell, Run_cell_cell_color dm cell⟩
  rw [Run_daughter, runDecision_nodiv dm cell (not_lt.mpr h8) hcd]

/-- Witness for C4 at a concrete cell of diameter 9 with `can_divide` off. -/
theorem Run_division_suppressed_witness :
    8 ≤ cellBigNoDiv.mech.diameter ∧ cellBigNoDiv.can_divide = false ∧
    (Run dmId cellBigNoDiv).daughter = none ∧
    (Run dmId cellBigNoDiv).cell.can_divide = cellBigNoDiv.can_divide ∧
    (Run dmId cellBigNoDiv).cell.cell_color = cellBigNoDiv.cell_color :=
  ⟨by decide, rfl, Run_division_suppressed dmId cellBigNoDiv (by decide) rfl⟩

/-- C5: one `GrowthModule::Run` invocation never writes z -- the final z
always equals the z the boundary check read; if the read x and y are
strictly inside `(x_min+ε, x_max−ε) × (y_min+ε, y_max−ε)` no position write
happens at all; and when the invocation does not divide (the only case in
which the external mechanics may move the cell first), the z and, when
strictly inside, the whole position of the agent itself are untouched. -/
theorem Run_never_touches_z (dm : DivideMech) (cell : MyCell) :
    ((Run dm cell).cell.mech.position.z = (runDecision dm cell).1.mech.position.z) ∧
    (x_min + 0.01 < (runDecision dm cell).1.mech.position.x →
     (runDecision dm cell).1.mech.position.x < x_max - 0.01 →
     y_min + 0.01 < (runDecision dm cell).1.mech.position.y →
     (runDecision dm cell).1.mech.position.y < y_max - 0.01 →
       (Run dm cell).positionWritten = false ∧
       (Run dm cell).cell.mech.position = (runDecision dm cell).1.mech.position) ∧
    (cell.mech.diameter < 8 ∨ cell.can_divide = false →
       (Run dm cell).cell.mech.position.z = cell.mech.position.z ∧
       (x_min + 0.01 < cell.mech.position.x → cell.mech.position.x < x_max - 0.01 →
        y_min + 0.01 < cell.mech.position.y → cell.mech.position.y < y_max - 0.01 →
          (Run dm cell).positionWritten = false ∧
          (Run dm cell).cell.mech.position = cell.mech.position)) := by
  have hz : (Run dm cell).cell.mech.position.z = (runDecision dm cell).1.mech.position.z := by
    rw [Run_cell_position, boundCoord_fst]
  have hin : x_min + 0.01 < (runDecision dm cell).1.mech.position.x →
      (runDecision dm cell).1.mech.position.x < x_max - 0.01 →
      y_min + 0.01 < (runDecision dm cell).1.mech.position.y →
      (runDecision dm cell).1.mech.position.y < y_max - 0.01 →
        (Run dm cell).positionWritten = false ∧
        (Run dm cell).cell.mech.position = (runDecision dm cell).1.mech.position := by
    intro h1 h2 h3 h4
    have hb := boundCoord_inside _ h1 h2 h3 h4
    constructor
    · rw [Run_positionWritten, hb]
    · rw [Run_cell_position, hb]
  refine ⟨hz, hin, fun h => ?_⟩
  have hp := runDecision_fst_of_nodivide dm cell h
  rw [hp] at hz hin
  exact ⟨hz, hin⟩

/-- Witness for C5 at a concrete non-dividing cell strictly inside in x/y
whose z (9999) is far outside every range. -/
theorem Run_never_touches_z_witness :
    (cellIn.mech.diameter < 8 ∨ cellIn.can_divide = false) ∧
    (x_min + 0.01 < cellIn.mech.position.x ∧ cellIn.mech.position.x < x_max - 0.01 ∧
     y_min + 0.01 < cellIn.mech.position.y ∧ cellIn.mech.position.y < y_max - 0.01) ∧
    (Run dmId cellIn).cell.mech.position.z = cellIn.mech.position.z ∧
    (Run dmId cellIn).positionWritten = false ∧
    (Run dmId cellIn).cell.mech.position = cellIn.mech.position := by
  have hnd : cellIn.mech.diameter < 8 ∨ cellIn.can_divide = false := Or.inl (by decide)
  have h1 : x_min + 0.01 < cellIn.mech.position.x := by norm_num [cellIn, x_min, x_range]
  have h2 : cellIn.mech.position.x < x_max - 0.01 := by norm_num [cellIn, x_max, x_range]
  have h3 : y_min + 0.01 < cellIn.mech.position.y := by norm_num [cellIn, y_min, x_range]
  have h4 : cellIn.mech.position.y < y_max - 0.01 := by norm_num [cellIn, y_max, x_range]
  have h := (Run_never_touches_z dmId cellIn).2.2 hnd
  exact ⟨hnd, ⟨h1, h2, h3, h4⟩, h.1, h.2 h1 h2 h3 h4⟩

/-- C6: the growth/division decision runs before the boundary check, the
boundary check is applied to the invoked (mother) agent regardless of which
branch ran, and a daughter created by the same invocation is returned
verbatim from the decision step -- in particular its position is whatever
the division mechanics produced, never clamped by the mother's invocation. -/
theorem Run_decision_before_clamp (dm : DivideMech) (cell : MyCell) :
    ((Run dm cell).daughter = (runDecision dm cell).2.1) ∧
    ((Run dm cell).cell.mech.position =
      (boundCoord (runDecision dm cell).1.mech.position).1) ∧
    (¬ cell.mech.diameter < 8 → cell.can_divide = true →
      (Run dm cell).daughter =
        some { mech := (dm cell.mech).2, can_divide := true,
               cell_color := cell.cell_color,
               biologyModules := cell.biologyModules }) := by
  refine ⟨Run_daughter dm cell, Run_cell_position dm cell, fun h8 hcd => ?_⟩
  rw [Run_daughter, runDecision_div dm cell h8 hcd]

/-- Witness for C6: a dividing mother whose daughter is placed at
`(200, -300, 4)`, far outside the domain, and keeps exactly that position. -/
theorem Run_decision_before_clamp_witness :
    (¬ cellBig.mech.diameter < 8) ∧ cellBig.can_divide = true ∧
    Option.map (fun d => d.mech.position) (Run dmOut cellBig).daughter =
      some ⟨200, -300, 4⟩ := by
  have h8 : ¬ cellBig.mech.diameter < 8 := by norm_num [cellBig]
  refine ⟨h8, rfl, ?_⟩
  rw [(Run_decision_before_clamp dmOut cellBig).2.2 h8 rfl]
  rfl

/-- C7: the `cell_color` tag never influences the behavior: two agents whose
states differ only in `cell_color` produce, under one `GrowthModule::Run`
invocation with the same division mechanics, identical mechanical states,
flags, effects and division outcomes -- except that each agent keeps its own
color and each daughter carries its own mother's color. -/
theorem Run_color_noninterference (dm : DivideMech) (c1 c2 : MyCell)
    (hm : c1.mech = c2.mech) (hd : c1.can_divide = c2.can_divide)
    (hb : c1.biologyModules = c2.biologyModules) :
    (Run dm c1).cell.mech = (Run dm c2).cell.mech ∧
    (Run dm c1).cell.can_divide = (Run dm c2).cell.can_divide ∧
    (Run dm c1).cell.cell_color = c1.cell_color ∧
    (Run dm c2).cell.cell_color = c2.cell_color ∧
    (Run dm c1).volumeRequests = (Run dm c2).volumeRequests ∧
    (Run dm c1).positionWritten = (Run dm c2).positionWritten ∧
    Option.map (fun d => (d.mech, d.can_divide, d.biologyModules)) (Run dm c1).daughter =
      Option.map (fun d => (d.mech, d.can_divide, d.biologyModules)) (Run dm c2).daughter ∧
    (∀ d, (Run dm c1).daughter = some d → d.cell_color = c1.cell_color) ∧
    (∀ d, (Run dm c2).daughter = some d → d.cell_color = c2.cell_color) := by
  refine ⟨?_, ?_, Run_cell_cell_color dm c1, Run_cell_cell_color dm c2, ?_, ?_, ?_, ?_, ?_⟩
  · rw [Run_cell_mech, Run_cell_mech, runDecision_fst_mech, runDecision_fst_mech, hm, hd]
  · rw [Run_cell_can_divide, Run_cell_can_divide, hd]
  · rw [Run_volumeRequests, Run_volumeRequests, runDecision_requests,
      runDecision_requests, hm]
  · rw [Run_positionWritten, Run_positionWritten, runDecision_fst_mech,
      runDecision_fst_mech, hm, hd]
  · rw [Run_daughter, Run_daughter, runDecision_daughter_erased,
      runDecision_daughter_erased, hm, hd, hb]
  · intro d h
    rw [Run_daughter] at h
    exact runDecision_daughter_color dm c1 d h
  · intro d h
    rw [Run_daughter] at h
    exact runDecision_daughter_color dm c2 d h

/-- Witness for C7: two dividing cells identical except for colors 3 and 7
end with the same mechanical state and each keeps its own color. -/
theorem Run_color_noninterference_witness :
    cellBig.mech = cellBig2.mech ∧ cellBig.can_divide = cellBig2.can_divide ∧
    cellBig.biologyModules = cellBig2.biologyModules ∧
    (Run dmId cellBig).cell.mech = (Run dmId cellBig2).cell.mech ∧
    (Run dmId cellBig).cell.cell_color = 3 ∧
    (Run dmId cellBig2).cell.cell_color = 7 := by
  have h := Run_color_noninterference dmId cellBig cellBig2 rfl rfl rfl
  exact ⟨rfl, rfl, rfl, h.1, h.2.2.1, h.2.2.2.1⟩

/-- C8: one `GrowthModule::Run` invocation is a total function of the
agent's state and the division mechanics: it always yields exactly one
defined result, and both the volume-request and the daughter outcome fall
into one of the enumerated cases -- there is no error path. -/
theorem Run_total_function (dm : DivideMech) (cell : MyCell) :
    (∃! r : RunResult, Run dm cell = r) ∧
    ((Run dm cell).volumeRequests = [300] ∨ (Run dm cell).volumeRequests = []) ∧
    ((Run dm cell).daughter = none ∨ ∃ d, (Run dm cell).daughter = some d) := by
  refine ⟨⟨Run dm cell, rfl, fun r h => h.symm⟩, ?_, ?_⟩
  · rw [Run_volumeRequests, runDecision_requests]
    by_cases h8 : cell.mech.diameter < 8
    · rw [if_pos h8]
      exact Or.inl rfl
    · rw [if_neg h8]
      exact Or.inr rfl
  · cases h : (Run dm cell).daughter
    · exact Or.inl rfl
    · exact Or.inr ⟨_, rfl⟩

/-- C9: the setup creates exactly 10 agents (`num_cells`), each of diameter
6, each with exactly the `GrowthModule` behavior attached, each placed at
`z_pos_init` with x and y drawn from `Uniform(x_min, x_max)` and
`Uniform(y_min, y_max)` (so inside the bounds whenever the random source
honors them), where `x_min = y_min = -75` and `x_max = y_max = 75`, and the
run is `simulation_steps = 600` ticks. -/
theorem Simulate_setup_spec (base : CellMech) (draw : ℕ → ℚ × ℚ)
    (hdraw : ∀ i, i < num_cells → x_min ≤ (draw i).1 ∧ (draw i).1 ≤ x_max ∧
      y_min ≤ (draw i).2 ∧ (draw i).2 ≤ y_max) :
    (Simulate.initialCells base draw).length = 10 ∧
    (∀ c ∈ Simulate.initialCells base draw,
      c.mech.diameter = 6 ∧
      c.biologyModules = [BiologyModule.growthModule] ∧
      c.mech.position.z = z_pos_init ∧
      x_min ≤ c.mech.position.x ∧ c.mech.position.x ≤ x_max ∧
      y_min ≤ c.mech.position.y ∧ c.mech.position.y ≤ y_max) ∧
    x_min = -75 ∧ x_max = 75 ∧ y_min = -75 ∧ y_max = 75 ∧
    num_cells = 10 ∧ simulation_steps = 600 := by
  refine ⟨?_, ?_, by norm_num [x_min, x_range], by norm_num [x_max, x_range],
    by norm_num [y_min, x_range], by norm_num [y_max, x_range], rfl, rfl⟩
  · simp [Simulate.initialCells, num_cells]
  · intro c hc
    simp only [Simulate.initialCells, List.mem_map, List.mem_range] at hc
    obtain ⟨i, hi, rfl⟩ := hc
    have h := hdraw i hi
    exact ⟨rfl, rfl, rfl, h.1, h.2.1, h.2.2.1, h.2.2.2⟩

/-- Witness for C9 with the constant-zero random source. -/
theorem Simulate_setup_spec_witness :
    (∀ i, i < num_cells → x_min ≤ (drawZero i).1 ∧ (drawZero i).1 ≤ x_max ∧
      y_min ≤ (drawZero i).2 ∧ (drawZero i).2 ≤ y_max) ∧
    (Simulate.initialCells mechZero drawZero).length = 10 ∧
    x_min = -75 ∧ simulation_steps = 600 := by
  have hdraw : ∀ i, i < num_cells → x_min ≤ (drawZero i).1 ∧ (drawZero i).1 ≤ x_max ∧
      y_min ≤ (drawZero i).2 ∧ (drawZero i).2 ≤ y_max := by
    intro i _
    norm_num [drawZero, x_min, x_max, y_min, y_max, x_range]
  have h := Simulate_setup_spec mechZero drawZero hdraw
  exact ⟨hdraw, h.1, h.2.2.1, h.2.2.2.2.2.2.2⟩

/-- C10: every agent built by the position constructor starts with
`can_divide == true` and `cell_color == 0`; in particular every one of the
initial agents of the setup can divide and has color 0. -/
theorem MyCell_position_ctor_defaults (base : CellMech) (p : Coord3) (draw : ℕ → ℚ × ℚ) :
    (MyCellExt.ofPosition base p).can_divide = true ∧
    (MyCellExt.ofPosition base p).cell_color = 0 ∧
    ((Simulate.initialCells base draw).all
      (fun c => c.can_divide && c.cell_color == 0)) = true := by
  refine ⟨rfl, rfl, ?_⟩
  simp [Simulate.initialCells, MyCellExt.ofPosition, List.all_eq_true]

end Boundaries
